import Mathlib

/-!
Formal model of the Ocean Analysis API backend (`backend/app/main.py`).

The model embeds the backend's pure state-transformation core:
the response cache (`get_cached_data` / `set_cached_data` / `get_cache_key`),
the vessel entity store and its viewport query (`get_vessels`), one
message-processing step of the AIS stream ingestor (`connect_ais_stream`),
the AQI endpoint (`get_aqi_data`), the wave sampling grid (`generate_grid`
and the sampling cap in `get_waves`), and the health endpoint's counters.

Python floats are modelled as rationals, `datetime` values as integer
seconds (`CACHE_TTL` of 10 minutes is 600 seconds, the 30-minute vessel
staleness window is 1800 seconds).  Python dicts (which preserve insertion
order) are modelled as association lists with in-place update.  `hashlib.md5`
is implemented in full (RFC 1321) so that cache keys are genuine hexadecimal
digests.
-/

/-- UTF-8 encoding of a single character, as a list of byte values
(models Python `str.encode()` per character). -/
def utf8Bytes (c : Char) : List Nat :=
  let n := c.toNat
  if n < 128 then [n]
  else if n < 2048 then [192 + n / 64, 128 + n % 64]
  else if n < 65536 then [224 + n / 4096, 128 + (n / 64) % 64, 128 + n % 64]
  else [240 + n / 262144, 128 + (n / 4096) % 64, 128 + (n / 64) % 64, 128 + n % 64]

/-- UTF-8 encoding of a string (models Python `str.encode()`). -/
def strBytes (s : String) : List Nat :=
  (s.toList.map utf8Bytes).flatten

/-- Left-rotation of a 32-bit word (the word is a `Nat` below `2 ^ 32`). -/
def rotl32 (x n : Nat) : Nat :=
  (x * 2 ^ n) % 4294967296 + x / 2 ^ (32 - n)

/-- The 64 MD5 round constants (RFC 1321). -/
def md5K : List Nat :=
  [0xd76aa478, 0xe8c7b756, 0x242070db, 0xc1bdceee,
   0xf57c0faf, 0x4787c62a, 0xa8304613, 0xfd469501,
   0x698098d8, 0x8b44f7af, 0xffff5bb1, 0x895cd7be,
   0x6b901122, 0xfd987193, 0xa679438e, 0x49b40821,
   0xf61e2562, 0xc040b340, 0x265e5a51, 0xe9b6c7aa,
   0xd62f105d, 0x02441453, 0xd8a1e681, 0xe7d3fbc8,
   0x21e1cde6, 0xc33707d6, 0xf4d50d87, 0x455a14ed,
   0xa9e3e905, 0xfcefa3f8, 0x676f02d9, 0x8d2a4c8a,
   0xfffa3942, 0x8771f681, 0x6d9d6122, 0xfde5380c,
   0xa4beea44, 0x4bdecfa9, 0xf6bb4b60, 0xbebfbc70,
   0x289b7ec6, 0xeaa127fa, 0xd4ef3085, 0x04881d05,
   0xd9d4d039, 0xe6db99e5, 0x1fa27cf8, 0xc4ac5665,
   0xf4292244, 0x432aff97, 0xab9423a7, 0xfc93a039,
   0x655b59c3, 0x8f0ccc92, 0xffeff47d, 0x85845dd1,
   0x6fa87e4f, 0xfe2ce6e0, 0xa3014314, 0x4e0811a1,
   0xf7537e82, 0xbd3af235, 0x2ad7d2bb, 0xeb86d391]

/-- The 64 MD5 per-round left-rotation amounts (RFC 1321). -/
def md5S : List Nat :=
  [7, 12, 17, 22, 7, 12, 17, 22, 7, 12, 17, 22, 7, 12, 17, 22,
   5, 9, 14, 20, 5, 9, 14, 20, 5, 9, 14, 20, 5, 9, 14, 20,
   4, 11, 16, 23, 4, 11, 16, 23, 4, 11, 16, 23, 4, 11, 16, 23,
   6, 10, 15, 21, 6, 10, 15, 21, 6, 10, 15, 21, 6, 10, 15, 21]

/-- The MD5 nonlinear function for round index `i` (RFC 1321). -/
def md5F (i b c d : Nat) : Nat :=
  if i < 16 then Nat.lor (Nat.land b c) (Nat.land (4294967295 - b) d)
  else if i < 32 then Nat.lor (Nat.land d b) (Nat.land (4294967295 - d) c)
  else if i < 48 then Nat.xor (Nat.xor b c) d
  else Nat.xor c (Nat.lor b (4294967295 - d))

/-- The MD5 message-word index for round index `i` (RFC 1321). -/
def md5G (i : Nat) : Nat :=
  if i < 16 then i
  else if i < 32 then (5 * i + 1) % 16
  else if i < 48 then (3 * i + 5) % 16
  else (7 * i) % 16

/-- One MD5 round applied to the running state `(a, b, c, d)`. -/
def md5Round (M : List Nat) (st : Nat × Nat × Nat × Nat) (i : Nat) :
    Nat × Nat × Nat × Nat :=
  let (a, b, c, d) := st
  let t := (a + md5F i b c d + md5K.getD i 0 + M.getD (md5G i) 0) % 4294967296
  (d, (b + rotl32 t (md5S.getD i 0)) % 4294967296, b, c)

/-- Process one padded 64-byte chunk, updating the MD5 state. -/
def md5Chunk (st : Nat × Nat × Nat × Nat) (chunk : List Nat) :
    Nat × Nat × Nat × Nat :=
  let M := (List.range 16).map fun j =>
    chunk.getD (4 * j) 0 + 256 * chunk.getD (4 * j + 1) 0 +
    65536 * chunk.getD (4 * j + 2) 0 + 16777216 * chunk.getD (4 * j + 3) 0
  let (a, b, c, d) := (List.range 64).foldl (md5Round M) st
  ((st.1 + a) % 4294967296, (st.2.1 + b) % 4294967296,
   (st.2.2.1 + c) % 4294967296, (st.2.2.2 + d) % 4294967296)

/-- MD5 padding: append `0x80`, zero bytes up to 56 mod 64, then the 64-bit
little-endian bit length (RFC 1321). -/
def md5Pad (msg : List Nat) : List Nat :=
  let len := msg.length
  msg ++ [128] ++ List.replicate ((119 - len % 64) % 64) 0 ++
    (List.range 8).map fun i => (8 * len) / 2 ^ (8 * i) % 256

/-- Split a byte list (whose length is a multiple of 64, as after padding)
into successive 64-byte chunks. -/
def chunks64 (l : List Nat) : List (List Nat) :=
  (List.range (l.length / 64)).map fun i => (l.drop (64 * i)).take 64

/-- Little-endian byte decomposition of a 32-bit word. -/
def leBytes4 (x : Nat) : List Nat :=
  [x % 256, x / 256 % 256, x / 65536 % 256, x / 16777216 % 256]

/-- The MD5 digest of a byte sequence, as 16 byte values (RFC 1321). -/
def md5Bytes (msg : List Nat) : List Nat :=
  let (a, b, c, d) := (chunks64 (md5Pad msg)).foldl md5Chunk
    (0x67452301, 0xefcdab89, 0x98badcfe, 0x10325476)
  leBytes4 a ++ leBytes4 b ++ leBytes4 c ++ leBytes4 d

/-- The sixteen lowercase hexadecimal digit characters. -/
def hexChars : List Char := "0123456789abcdef".toList

/-- Hexadecimal digit character for a nibble value. -/
def hexChar (n : Nat) : Char := hexChars.getD (n % 16) '0'

/-- Hexadecimal MD5 digest of a string: models Python
`hashlib.md5(s.encode()).hexdigest()` as used by `get_cache_key`. -/
def md5Hex (s : String) : String :=
  String.mk ((md5Bytes (strBytes s)).map (fun b => [hexChar (b / 16), hexChar (b % 16)])).flatten

/-- Sanity anchor: the model reproduces the well-known MD5 digest of the
empty string, so the constants and message schedule above are the real MD5. -/
theorem md5Hex_empty : md5Hex "" = "d41d8cd98f00b204e9800998ecf8427e" := by decide

/-- Sanity anchor: the model reproduces the well-known MD5 digest of "abc". -/
theorem md5Hex_abc : md5Hex "abc" = "900150983cd24fb0d6963f7d28e17f72" := by decide

/-- Round `10 * q` to the nearest integer, ties to even — the rounding
Python performs when formatting a value with `f"{x:.1f}"` (the model works
over rationals; the format rounds the value to one decimal place).
Computed on the numerator and denominator directly so the kernel can
evaluate it. -/
def rhe10 (q : ℚ) : Int :=
  let n := 10 * q.num
  let d := (q.den : Int)
  let f := Int.fdiv n d
  let r2 := 2 * (n - f * d)
  if r2 < d then f
  else if d < r2 then f + 1
  else if f % 2 = 0 then f else f + 1

/-- Model of Python `f"{x:.1f}"`: one-decimal fixed-point rendering.  Note
that Python renders a negative value that rounds to zero as `"-0.0"`
(for example `f"{-0.01:.1f}" == "-0.0"`), which the sign test reproduces. -/
def fmt1 (q : ℚ) : String :=
  let n := rhe10 q
  let sign := if n < 0 ∨ (n = 0 ∧ q < 0) then "-" else ""
  sign ++ toString (n.natAbs / 10) ++ "." ++ toString (n.natAbs % 10)

/-- The pre-hash key string built inside `get_cache_key` (main.py line 76):
`f"{prefix}_{min_lat:.1f}_{min_lon:.1f}_{max_lat:.1f}_{max_lon:.1f}"`. -/
def bbox_str (kind : String) (min_lat min_lon max_lat max_lon : ℚ) : String :=
  kind ++ "_" ++ fmt1 min_lat ++ "_" ++ fmt1 min_lon ++ "_" ++
    fmt1 max_lat ++ "_" ++ fmt1 max_lon

/-- Cache key derivation (main.py `get_cache_key`, lines 74-77): the MD5 hex
digest of the rounded bounding-box string. -/
def get_cache_key (kind : String) (min_lat min_lon max_lat max_lon : ℚ) : String :=
  md5Hex (bbox_str kind min_lat min_lon max_lat max_lon)

/-- Modelled from the spec: rounding a coordinate "to one decimal degree" as
a numeric value.  Used only to state claims that speak about boxes whose
coordinates "round to the same one-decimal-degree values"; the source itself
compares nothing numerically, it formats strings inside `get_cache_key`. -/
def spec_roundTenth (q : ℚ) : ℚ := mkRat (rhe10 q) 10

/-- A cache store: Python dict from string key to `(data, timestamp)`,
modelled as an insertion-ordered association list. -/
abbrev Cache (α : Type) := List (String × α × Int)

/-- Dict lookup (first entry with the key; Python keys are unique). -/
def dictLookup {α : Type} : Cache α → String → Option (α × Int)
  | [], _ => none
  | (k, v, t) :: rest, key => if k = key then some (v, t) else dictLookup rest key

/-- Dict assignment `store[key] = (data, ts)`: update in place if the key is
present (keeping its position, as Python dicts do), else append. -/
def dictInsert {α : Type} : Cache α → String → α × Int → Cache α
  | [], key, vt => [(key, vt.1, vt.2)]
  | (k, v, t) :: rest, key, vt =>
    if k = key then (key, vt.1, vt.2) :: rest else (k, v, t) :: dictInsert rest key vt

/-- Dict deletion `del store[key]` (removes the entry with the key). -/
def dictDelete {α : Type} : Cache α → String → Cache α
  | [], _ => []
  | (k, v, t) :: rest, key => if k = key then rest else (k, v, t) :: dictDelete rest key

/-- The entry with the minimal timestamp, earliest insertion winning ties:
models `min(cache_store.keys(), key=lambda k: cache_store[k][1])`
(main.py line 92; Python `min` returns the first minimal element). -/
def oldestEntry {α : Type} : Cache α → Option (String × α × Int)
  | [] => none
  | e :: rest =>
    match oldestEntry rest with
    | none => some e
    | some e2 => if e2.2.2 < e.2.2 then some e2 else some e

/-- `CACHE_TTL = timedelta(minutes=10)` (main.py line 36), in seconds. -/
def CACHE_TTL : Int := 600

/-- `MAX_CACHE_SIZE = 100` (main.py line 37). -/
def MAX_CACHE_SIZE : Nat := 100

/-- Response-cache read (main.py `get_cached_data`, lines 79-87): returns the
payload if present and fresh; deletes the entry and reports absent if present
but expired; reports absent leaving the store unchanged if missing.  Returns
the (possibly mutated) store alongside the result. -/
def get_cached_data {α : Type} (now : Int) (cache_key : String)
    (cache_store : Cache α) : Option α × Cache α :=
  match dictLookup cache_store cache_key with
  | some (data, timestamp) =>
    if now - timestamp < CACHE_TTL then (some data, cache_store)
    else (none, dictDelete cache_store cache_key)
  | none => (none, cache_store)

/-- Response-cache write (main.py `set_cached_data`, lines 89-95): when the
store holds at least `MAX_CACHE_SIZE` entries, first deletes the entry with
the smallest timestamp (regardless of whether the key being written is
already present), then assigns `key -> (data, now)`. -/
def set_cached_data {α : Type} (cache_key : String) (data : α) (now : Int)
    (cache_store : Cache α) : Cache α :=
  let c1 :=
    if MAX_CACHE_SIZE ≤ cache_store.length then
      match oldestEntry cache_store with
      | some e => dictDelete cache_store e.1
      | none => cache_store
    else cache_store
  dictInsert c1 cache_key (data, now)

/-- A feature-collection payload `{"type": "FeatureCollection",
"features": [...]}`; the constant `"type"` field is implicit.  Every payload
the backend stores in `api_cache` has this shape, so the health endpoint's
`'features' in data` test is always true for stored entries. -/
structure FC (F : Type) where
  features : List F
deriving DecidableEq

/-- JSON values, as produced by Python `json.loads`. -/
inductive Json where
  | null : Json
  | b : Bool → Json
  | num : ℚ → Json
  | str : String → Json
  | arr : List Json → Json
  | obj : List (String × Json) → Json

/-- Lookup in a JSON object (Python `d.get(k)` / `d[k]` when `d` is a dict). -/
def olookup : List (String × Json) → String → Option Json
  | [], _ => none
  | (k, v) :: rest, key => if k = key then some v else olookup rest key

/-- Python `value == "literal"` for an optional JSON value: true exactly when
the value is present and is that string. -/
def isStrVal (o : Option Json) (s : String) : Bool :=
  match o with
  | some (.str s2) => s2 = s
  | _ => false

/-- The vessel feature stored per MMSI by the ingestor (main.py lines
119-130): the `properties` of the GeoJSON feature.  `lat`/`lon` are the
numeric position used by the viewport filter; `speed`/`course` default to
`0` when `Sog`/`Cog` are absent. -/
structure VesselRec where
  mmsi : Json
  speed : Json
  course : Json
  lat : ℚ
  lon : ℚ
  last_updated : Int

/-- The vessel entity store `vessels_cache`: dict from `str(mmsi)` to
`(vessel_data, timestamp)`. -/
abbrev VCache := List (String × VesselRec × Int)

/-- Python `str()` of a JSON value, as used for the MMSI key
`vessels_cache[str(mmsi)]`.  Position reports carry a numeric `UserID`, so
only the numeric case is exercised by the feed. -/
def pyStr : Json → String
  | .null => "None"
  | .b true => "True"
  | .b false => "False"
  | .num q => if q.den = 1 then toString q.num else toString q
  | .str s => s
  | .arr _ => "<list>"
  | .obj _ => "<dict>"

/-- The per-entry loop of `get_vessels` (main.py lines 221-232): one pass over
the vessel store that deletes entries older than 30 minutes (1800 seconds)
and collects the remaining vessels inside the bounding box (inclusive bounds).
Returns `(filtered features, surviving store, stale count)`. -/
def vessels_loop (now : Int) (min_lat min_lon max_lat max_lon : ℚ) :
    VCache → List VesselRec × VCache × Nat
  | [] => ([], [], 0)
  | (k, v, t) :: rest =>
    if 1800 < now - t then
      let r := vessels_loop now min_lat min_lon max_lat max_lon rest
      (r.1, r.2.1, r.2.2 + 1)
    else
      let r := vessels_loop now min_lat min_lon max_lat max_lon rest
      if min_lat ≤ v.lat ∧ v.lat ≤ max_lat ∧ min_lon ≤ v.lon ∧ v.lon ≤ max_lon then
        (v :: r.1, (k, v, t) :: r.2.1, r.2.2)
      else
        (r.1, (k, v, t) :: r.2.1, r.2.2)

/-- The `/api/vessels` handler (main.py `get_vessels`, lines 200-243): checks
the response cache under the rounded-box key; on a hit returns the cached
payload; on a miss runs the store sweep-and-filter loop, caches the resulting
feature collection under the key, and returns it.  Returns
`(response, vessel store after, api cache after)`. -/
def get_vessels (now : Int) (min_lat min_lon max_lat max_lon : ℚ)
    (vessels : VCache) (api : Cache (FC VesselRec)) :
    FC VesselRec × VCache × Cache (FC VesselRec) :=
  let cache_key := get_cache_key "vessels" min_lat min_lon max_lat max_lon
  let g := get_cached_data now cache_key api
  match g.1 with
  | some cached => (cached, vessels, g.2)
  | none =>
    let r := vessels_loop now min_lat min_lon max_lat max_lon vessels
    let result : FC VesselRec := ⟨r.1⟩
    (result, r.2.1, set_cached_data cache_key result now g.2)

/-- One inbound-message step of the stream ingestor (main.py
`connect_ais_stream`, lines 112-133).  The argument is the result of
`json.loads` (`none` models a JSON decode error).  `Except`'s error value
models an exception escaping the message loop: the store is unchanged and
the connection is torn down.  A well-formed object whose `MessageType` is
not `"PositionReport"` is skipped silently; a position report upserts the
vessel store under `str(UserID)`.  Missing `Message`/`PositionReport`/
`UserID`/`Latitude`/`Longitude` fields raise (`KeyError`), as does calling
`.get` on a non-dict message. -/
def process_message (now : Int) (msg : Option Json) (vessels : VCache) :
    Except Unit VCache :=
  match msg with
  | none => .error ()
  | some j =>
    match j with
    | .obj fields =>
      if isStrVal (olookup fields "MessageType") "PositionReport" then
        match olookup fields "Message" with
        | some (.obj msgObj) =>
          match olookup msgObj "PositionReport" with
          | some (.obj data) =>
            match olookup data "UserID", olookup data "Latitude", olookup data "Longitude" with
            | some uid, some (.num lat), some (.num lon) =>
              let vrec : VesselRec :=
                { mmsi := uid,
                  speed := (olookup data "Sog").getD (.num 0),
                  course := (olookup data "Cog").getD (.num 0),
                  lat := lat, lon := lon, last_updated := now }
              .ok (dictInsert vessels (pyStr uid) (vrec, now))
            | _, _, _ => .error ()
          | _ => .error ()
        | _ => .error ()
      else .ok vessels
    | _ => .error ()

/-- The message-consumption loop of one stream connection (the `async for`
of main.py lines 112-133): messages are processed in order; the first
message whose processing raises aborts the loop (the connection is dropped
and later re-established after a fixed delay), leaving the remaining
messages of that connection unconsumed.  Returns the final store and the
unconsumed messages. -/
def consume_messages (now : Int) :
    List (Option Json) → VCache → VCache × List (Option Json)
  | [], vessels => (vessels, [])
  | m :: rest, vessels =>
    match process_message now m vessels with
    | .ok vessels2 => consume_messages now rest vessels2
    | .error _ => (vessels, rest)

/-- AQI color scale (main.py `get_aqi_color`, lines 45-52). -/
def get_aqi_color (aqi : Int) : String :=
  if aqi ≤ 50 then "#2ecc71"
  else if aqi ≤ 100 then "#f1c40f"
  else if aqi ≤ 150 then "#e67e22"
  else if aqi ≤ 200 then "#e74c3c"
  else if aqi ≤ 300 then "#8e44ad"
  else "#7d0505"

/-- Truncation toward zero, as Python `int()` applied to a number. -/
def ratTrunc (q : ℚ) : Int := Int.tdiv q.num q.den

/-- Python `int(x)` for a JSON value (or `None` when the key was missing):
`some` is a successful conversion, `none` a `ValueError`/`TypeError`. -/
def pyInt : Option Json → Option Int
  | some (.num q) => some (ratTrunc q)
  | some (.str s) => s.toInt?
  | some (.b true) => some 1
  | some (.b false) => some 0
  | _ => none

/-- One AQI station feature as built by `get_aqi_data` (main.py lines
280-289). -/
structure AqiFeature where
  aqi : Int
  name : Json
  color : String
  last_updated : Json
  lon : Json
  lat : Json

/-- The station loop of `get_aqi_data` (main.py lines 277-291).  A station
whose `aqi` fails `int()` conversion is skipped (the inner
`except (ValueError, TypeError)`), but a non-dict station, a missing
`lon`/`lat` (`KeyError`), or a non-dict `station` field raise out of the
inner handler; `none` models such an exception reaching the outer handler. -/
def parse_stations : List Json → Option (List AqiFeature)
  | [] => some []
  | .obj st :: rest =>
    (match pyInt (olookup st "aqi") with
     | none => parse_stations rest
     | some aqi =>
       match olookup st "lon", olookup st "lat" with
       | some lonJ, some latJ =>
         match (match olookup st "station" with
                | some (.obj s2) => some s2
                | none => some ([] : List (String × Json))
                | some _ => none) with
         | some s2 =>
           match parse_stations rest with
           | some feats =>
             some ({ aqi := aqi,
                     name := (olookup s2 "name").getD (.str "Unknown"),
                     color := get_aqi_color aqi,
                     last_updated := (olookup s2 "time").getD (.str ""),
                     lon := lonJ, lat := latJ } :: feats)
           | none => none
         | none => none
       | _, _ => none)
  | _ :: _ => none

/-- Station extraction from a parsed upstream body (main.py line 277,
`data.get("data", [])`, plus the station loop): a missing `data` key iterates
an empty list; a non-list `data` value or an exception inside the loop
(see `parse_stations`) reaches the outer exception handler, modelled as
`none`. -/
def aqi_features (fields : List (String × Json)) : Option (List AqiFeature) :=
  match olookup fields "data" with
  | none => some []
  | some (.arr stations) => parse_stations stations
  | some _ => none

/-- Outcome of the upstream AQICN fetch as observed by `get_aqi_data`:
a timeout (`httpx.TimeoutException`), any other exception (transport error
or `res.json()` failure), or a parsed JSON body. -/
inductive Upstream where
  | timeout : Upstream
  | exc : Upstream
  | ok : Json → Upstream

/-- The empty feature collection `{"type": "FeatureCollection",
"features": []}`. -/
def emptyFC {F : Type} : FC F := ⟨[]⟩

/-- The `/api/aqi` handler (main.py `get_aqi_data`, lines 245-303).  Raises
HTTP 500 (modelled as `.error 500`) exactly when `AQICN_TOKEN` is falsy
(absent or the empty string).  Otherwise consults the response cache; on a
miss, a timeout or any other fetch exception yields an uncached empty
feature collection, a body with `status != "ok"` yields a cached empty
collection, a successful body yields the parsed stations (cached), and an
exception during parsing yields an uncached empty collection. -/
def get_aqi_data (token : Option String) (now : Int)
    (min_lat min_lon max_lat max_lon : ℚ) (upstream : Upstream)
    (api : Cache (FC AqiFeature)) :
    Except Nat (FC AqiFeature × Cache (FC AqiFeature)) :=
  if token = none ∨ token = some "" then .error 500
  else
    let cache_key := get_cache_key "aqi" min_lat min_lon max_lat max_lon
    let g := get_cached_data now cache_key api
    match g.1 with
    | some cached => .ok (cached, g.2)
    | none =>
      match upstream with
      | .timeout => .ok (emptyFC, g.2)
      | .exc => .ok (emptyFC, g.2)
      | .ok body =>
        match body with
        | .obj fields =>
          if ¬ isStrVal (olookup fields "status") "ok" then
            .ok (emptyFC, set_cached_data cache_key emptyFC now g.2)
          else
            match aqi_features fields with
            | some feats => .ok (⟨feats⟩, set_cached_data cache_key ⟨feats⟩ now g.2)
            | none => .ok (emptyFC, g.2)
        | _ => .ok (emptyFC, g.2)

/-- Model of `np.arange(lo, hi, step)` for a positive step over rationals:
`ceil((hi - lo) / step)` points `lo + i * step` (empty when `hi <= lo`). -/
def arange (lo hi step : ℚ) : List ℚ :=
  (List.range (⌈(hi - lo) / step⌉.toNat)).map fun i => lo + i * step

/-- Concatenate `n` copies of a list (one meshgrid axis flattened). -/
def repList (n : Nat) (l : List ℚ) : List ℚ :=
  match n with
  | 0 => []
  | n + 1 => l ++ repList n l

/-- Repeat each element `m` times (the other meshgrid axis flattened). -/
def expand : List ℚ → Nat → List ℚ
  | [], _ => []
  | x :: rest, m => List.replicate m x ++ expand rest m

/-- Wave sampling grid (main.py `generate_grid`, lines 64-72): `arange`
ranges over each axis, each falling back to the single starting coordinate
when empty; `np.meshgrid(lats, lons)` flattened gives the latitude list
repeated `len(lons)` times and each longitude repeated `len(lats)` times. -/
def generate_grid (min_lat min_lon max_lat max_lon : ℚ) (step : ℚ) :
    List ℚ × List ℚ :=
  let lats0 := arange min_lat max_lat step
  let lons0 := arange min_lon max_lon step
  let lats := if lats0 = [] then [min_lat] else lats0
  let lons := if lons0 = [] then [min_lon] else lons0
  (repList lons.length lats, expand lons lats.length)

/-- The point cap of `get_waves` (main.py lines 321-327): when more than 50
grid points were generated, keep the 50 points at indices
`np.linspace(0, len-1, 50, dtype=int)`, that is `i * (len - 1) / 49`
truncated. -/
def waves_sample (la lo : List ℚ) : List ℚ × List ℚ :=
  if 50 < la.length then
    let idxs := (List.range 50).map fun i => i * (la.length - 1) / 49
    (idxs.map fun ix => la.getD ix 0, idxs.map fun ix => lo.getD ix 0)
  else (la, lo)

/-- The grid points actually queried by the `/api/waves` handler: the
generated grid (step 3.0), capped at 50 points. -/
def waves_points (min_lat min_lon max_lat max_lon : ℚ) : List ℚ × List ℚ :=
  let g := generate_grid min_lat min_lon max_lat max_lon 3
  waves_sample g.1 g.2

/-- Whether `needle` is an initial run of `hay` (helper for the Python
substring test). -/
def leadsB : List Char → List Char → Bool
  | [], _ => true
  | _ :: _, [] => false
  | a :: n, b :: h => a = b && leadsB n h

/-- Python's substring test `needle in hay` on character lists. -/
def hasSubB (needle : List Char) : List Char → Bool
  | [] => needle.isEmpty
  | b :: rest => leadsB needle (b :: rest) || hasSubB needle rest

/-- The counting loop of the health endpoint (main.py lines 162-174): for
each fresh cache entry (its payload, a stored feature collection, always
contains the `features` key), add its feature count to the AQI tally if the
key contains `'aqi'` or `'AQI'` as a substring, else to the wave tally if it
contains `'wave'` or `'WAVE'`.  Returns `(aqi_stations, wave_points)`. -/
def health_counts {F : Type} (now : Int) : Cache (FC F) → Nat × Nat
  | [] => (0, 0)
  | (k, d, t) :: rest =>
    let r := health_counts now rest
    if now - t < CACHE_TTL then
      if hasSubB "aqi".toList k.toList || hasSubB "AQI".toList k.toList then
        (r.1 + d.features.length, r.2)
      else if hasSubB "wave".toList k.toList || hasSubB "WAVE".toList k.toList then
        (r.1, r.2 + d.features.length)
      else r
    else r

/-- A sample vessel feature at latitude 10, longitude 20 (MMSI 111), used by
concrete witnesses. -/
def sampleVessel : VesselRec :=
  { mmsi := .num 111, speed := .num 0, course := .num 0,
    lat := 10, lon := 20, last_updated := 0 }

/-- A response-cache state holding exactly `MAX_CACHE_SIZE` entries
`"k0" .. "k99"` with insertion timestamps `0 .. 99`. -/
def c100 : Cache Unit :=
  (List.range 100).map fun i => ("k" ++ toString i, (), (i : Int))

/-- A well-formed AIS position report for MMSI 111 at latitude 10,
longitude 20. -/
def goodPR : Json :=
  .obj [("MessageType", .str "PositionReport"),
        ("Message", .obj [("PositionReport",
          .obj [("UserID", .num 111), ("Latitude", .num 10),
                ("Longitude", .num 20)])])]

/-- Looking up the key just written by `dictInsert` yields the written
value. -/
theorem dictLookup_dictInsert_self {α : Type} (c : Cache α) (k : String)
    (v : α × Int) : dictLookup (dictInsert c k v) k = some v := by
  induction c with
  | nil => simp [dictInsert, dictLookup]
  | cons e rest ih =>
    obtain ⟨k2, v2, t2⟩ := e
    by_cases h : k2 = k
    · simp [dictInsert, dictLookup, h]
    · simp [dictInsert, dictLookup, h, ih]

/-- A key belonging to some entry of the store has a successful lookup. -/
theorem dictLookup_isSome_of_mem {α : Type} {c : Cache α}
    {e : String × α × Int} (h : e ∈ c) : (dictLookup c e.1).isSome := by
  induction c with
  | nil => simp at h
  | cons e2 rest ih =>
    obtain ⟨k2, v2, t2⟩ := e2
    by_cases hk : k2 = e.1
    · simp [dictLookup, hk]
    · rcases List.mem_cons.mp h with h1 | h1
      · subst h1; simp at hk
      · simp [dictLookup, hk, ih h1]

/-- Deleting a present key shrinks the store by exactly one entry. -/
theorem dictDelete_length {α : Type} (c : Cache α) (k : String)
    (h : (dictLookup c k).isSome) : (dictDelete c k).length + 1 = c.length := by
  induction c with
  | nil => simp [dictLookup] at h
  | cons e rest ih =>
    obtain ⟨k2, v2, t2⟩ := e
    by_cases hk : k2 = k
    · simp [dictDelete, hk]
    · simp only [dictLookup, if_neg hk] at h
      simp [dictDelete, hk, ih h]

/-- Dict assignment grows the store by at most one entry. -/
theorem dictInsert_length_le {α : Type} (c : Cache α) (k : String)
    (v : α × Int) : (dictInsert c k v).length ≤ c.length + 1 := by
  induction c with
  | nil => simp [dictInsert]
  | cons e rest ih =>
    obtain ⟨k2, v2, t2⟩ := e
    by_cases hk : k2 = k
    · simp [dictInsert, hk]
    · simpa [dictInsert, hk] using ih

/-- The oldest entry belongs to the store and carries the minimal timestamp
among all entries. -/
theorem oldestEntry_eq_some {α : Type} {c : Cache α} {x : String × α × Int}
    (h : oldestEntry c = some x) : x ∈ c ∧ ∀ y ∈ c, x.2.2 ≤ y.2.2 := by
  induction c generalizing x with
  | nil => simp [oldestEntry] at h
  | cons a rest ih =>
    rw [oldestEntry] at h
    rcases hr : oldestEntry rest with _ | z
    · rw [hr] at h
      simp only [Option.some.injEq] at h
      subst h
      have hrest : rest = [] := by
        cases rest with
        | nil => rfl
        | cons b bs =>
          exfalso
          rw [oldestEntry] at hr
          rcases h2 : oldestEntry bs with _ | w
          · rw [h2] at hr; simp at hr
          · rw [h2] at hr
            dsimp only at hr
            split at hr <;> simp at hr
      subst hrest
      exact ⟨List.mem_singleton_self a,
        by intro y hy; rw [List.mem_singleton] at hy; subst hy; exact le_refl _⟩
    · rw [hr] at h
      dsimp only at h
      obtain ⟨hzmem, hzmin⟩ := ih hr
      split at h
      · next hlt =>
        simp only [Option.some.injEq] at h
        subst h
        refine ⟨List.mem_cons_of_mem a hzmem, ?_⟩
        intro y hy
        rcases List.mem_cons.mp hy with h1 | h1
        · subst h1; exact le_of_lt hlt
        · exact hzmin y h1
      · next hnlt =>
        simp only [Option.some.injEq] at h
        subst h
        refine ⟨List.mem_cons_self a rest, ?_⟩
        intro y hy
        rcases List.mem_cons.mp hy with h1 | h1
        · subst h1; exact le_refl _
        · exact le_trans (not_lt.mp hnlt) (hzmin y h1)

/-- A nonempty store has an oldest entry. -/
theorem oldestEntry_isSome {α : Type} {c : Cache α} (h : c ≠ []) :
    ∃ e, oldestEntry c = some e := by
  cases c with
  | nil => exact absurd rfl h
  | cons a rest =>
    rw [oldestEntry]
    rcases oldestEntry rest with _ | z
    · exact ⟨a, rfl⟩
    · dsimp only
      split
      · exact ⟨z, rfl⟩
      · exact ⟨a, rfl⟩

/-- A key outside the store's key set has a failing lookup. -/
theorem dictLookup_eq_none {α : Type} {c : Cache α} {k : String}
    (h : k ∉ c.map fun e => e.1) : dictLookup c k = none := by
  induction c with
  | nil => rfl
  | cons e rest ih =>
    obtain ⟨k2, v2, t2⟩ := e
    simp only [List.map_cons, List.mem_cons] at h
    push_neg at h
    have hk2 : ¬ (k2 = k) := fun hh => h.1 hh.symm
    simp [dictLookup, hk2, ih h.2]

/-- Deleting a key from a store with distinct keys removes every trace of
it: the subsequent lookup fails. -/
theorem dictLookup_dictDelete_self {α : Type} {c : Cache α} {k : String}
    (h : (c.map fun e => e.1).Nodup) : dictLookup (dictDelete c k) k = none := by
  induction c with
  | nil => rfl
  | cons e rest ih =>
    obtain ⟨k2, v2, t2⟩ := e
    simp only [List.map_cons, List.nodup_cons] at h
    by_cases hk : k2 = k
    · subst hk
      have hd : dictDelete ((k2, v2, t2) :: rest) k2 = rest := by
        simp [dictDelete]
      rw [hd]
      exact dictLookup_eq_none h.1
    · simp [dictDelete, dictLookup, hk, ih h.2]

/-- Reading back the key just written by `set_cached_data` yields the stored
payload with the write timestamp. -/
theorem dictLookup_set_cached_data {α : Type} (c : Cache α) (k : String)
    (d : α) (now : Int) :
    dictLookup (set_cached_data k d now c) k = some (d, now) := by
  unfold set_cached_data
  exact dictLookup_dictInsert_self _ _ _

/-- C2 (counterexample): a `Put` on a store at capacity whose key is already
present still evicts the oldest entry, contrary to the claim that "no entry
is evicted (the entry for key is simply overwritten)".  `c100` holds 100
entries (the capacity bound) and already contains `"k5"`; after
`Put("k5", ...)` the oldest entry `"k0"` is gone and only 99 entries
remain — under the claim the count would still be 100 and `"k0"` untouched. -/
theorem c2_put_at_capacity_present_key_evicts :
    c100.length = MAX_CACHE_SIZE ∧
    (dictLookup c100 "k5").isSome ∧
    (set_cached_data "k5" () 1000 c100).length = 99 ∧
    dictLookup (set_cached_data "k5" () 1000 c100) "k0" = none ∧
    (dictLookup c100 "k0").isSome := by
  refine ⟨by decide, by decide, by decide, by decide, by decide⟩

/-- C2 (amended): whenever the store is at (or above) capacity, `Put`
evicts exactly one entry — one with the minimal `insertedAt` — regardless
of whether the key is already present; and starting from any state within
the capacity bound, the entry count after a `Put` never exceeds the bound. -/
theorem c2_put_eviction_policy {α : Type} (c : Cache α) (k : String) (d : α)
    (now : Int) :
    (MAX_CACHE_SIZE ≤ c.length →
      ∃ e, oldestEntry c = some e ∧ e ∈ c ∧ (∀ y ∈ c, e.2.2 ≤ y.2.2) ∧
        set_cached_data k d now c = dictInsert (dictDelete c e.1) k (d, now)) ∧
    (c.length ≤ MAX_CACHE_SIZE →
      (set_cached_data k d now c).length ≤ MAX_CACHE_SIZE) := by
  constructor
  · intro h
    have hne : c ≠ [] := by
      intro h0
      rw [h0] at h
      simp [MAX_CACHE_SIZE] at h
    obtain ⟨e, he⟩ := oldestEntry_isSome hne
    obtain ⟨hmem, hmin⟩ := oldestEntry_eq_some he
    refine ⟨e, he, hmem, hmin, ?_⟩
    simp [set_cached_data, if_pos h, he]
  · intro h
    by_cases hcap : MAX_CACHE_SIZE ≤ c.length
    · have hne : c ≠ [] := by
        intro h0
        rw [h0] at hcap
        simp [MAX_CACHE_SIZE] at hcap
      obtain ⟨e, he⟩ := oldestEntry_isSome hne
      obtain ⟨hmem, _⟩ := oldestEntry_eq_some he
      have hsome := dictLookup_isSome_of_mem hmem
      have hdel := dictDelete_length c e.1 hsome
      have h1 : set_cached_data k d now c = dictInsert (dictDelete c e.1) k (d, now) := by
        simp [set_cached_data, if_pos hcap, he]
      rw [h1]
      calc (dictInsert (dictDelete c e.1) k (d, now)).length
          ≤ (dictDelete c e.1).length + 1 := dictInsert_length_le _ _ _
        _ = c.length := hdel
        _ ≤ MAX_CACHE_SIZE := h
    · have hlt : c.length < MAX_CACHE_SIZE := lt_of_not_le hcap
      have h1 : set_cached_data k d now c = dictInsert c k (d, now) := by
        simp [set_cached_data, if_neg hcap]
      rw [h1]
      calc (dictInsert c k (d, now)).length
          ≤ c.length + 1 := dictInsert_length_le _ _ _
        _ ≤ MAX_CACHE_SIZE := hlt

/-- C2 (witness): the amended theorem applied to the concrete full store
`c100`: the oldest entry exists and the count stays within the bound. -/
theorem c2_put_eviction_policy_witness :
    (∃ e, oldestEntry c100 = some e ∧ e ∈ c100 ∧ (∀ y ∈ c100, e.2.2 ≤ y.2.2) ∧
      set_cached_data "x" () 1000 c100 = dictInsert (dictDelete c100 e.1) "x" ((), 1000)) ∧
    (set_cached_data "x" () 1000 c100).length ≤ MAX_CACHE_SIZE :=
  ⟨(c2_put_eviction_policy c100 "x" () 1000).1 (by decide),
   (c2_put_eviction_policy c100 "x" () 1000).2 (by decide)⟩

/-- C6: `Get` returns the exact payload previously stored by `Put` while the
entry's age is strictly below the TTL; once the age reaches or exceeds the
TTL it deletes the entry (so a later lookup with distinct keys fails) and
reports absent; and `Get` on a missing key reports absent leaving the store
unchanged. -/
theorem c6_get_semantics {α : Type} (c : Cache α) (k : String) (d : α)
    (tPut now : Int) :
    (now - tPut < CACHE_TTL →
      get_cached_data now k (set_cached_data k d tPut c) =
        (some d, set_cached_data k d tPut c)) ∧
    (∀ p t, dictLookup c k = some (p, t) → CACHE_TTL ≤ now - t →
      get_cached_data now k c = (none, dictDelete c k) ∧
        ((c.map fun e => e.1).Nodup → dictLookup (dictDelete c k) k = none)) ∧
    (dictLookup c k = none → get_cached_data now k c = (none, c)) := by
  refine ⟨?_, ?_, ?_⟩
  · intro h
    simp [get_cached_data, dictLookup_set_cached_data, h]
  · intro p t hl hexp
    constructor
    · simp [get_cached_data, hl, if_neg (not_lt.mpr hexp)]
    · intro hnd
      exact dictLookup_dictDelete_self hnd
  · intro hl
    simp [get_cached_data, hl]

/-- C6 (witness): the theorem at concrete states — a fresh put-then-get
returns the payload, an expired entry is deleted and reported absent, and a
missing key changes nothing. -/
theorem c6_get_semantics_witness :
    get_cached_data 5 "a" (set_cached_data "a" () 0 ([] : Cache Unit)) =
      (some (), set_cached_data "a" () 0 ([] : Cache Unit)) ∧
    get_cached_data 600 "a" ([("a", (), 0)] : Cache Unit) =
      (none, dictDelete [("a", (), 0)] "a") ∧
    dictLookup (dictDelete ([("a", (), 0)] : Cache Unit) "a") "a" = none ∧
    get_cached_data 0 "b" ([("a", (), 0)] : Cache Unit) = (none, [("a", (), 0)]) := by
  have h2 := (c6_get_semantics ([("a", (), 0)] : Cache Unit) "a" () 0 600).2.1
    () 0 (by decide) (by decide)
  exact ⟨(c6_get_semantics [] "a" () 0 5).1 (by decide),
         h2.1, h2.2 (by decide),
         (c6_get_semantics [("a", (), 0)] "b" () 0 0).2.2 (by decide)⟩

/-- C1 (counterexample): a vessels viewport query does not leave the
Response Cache unchanged.  Starting from an empty `api_cache` (0 entries),
`get_vessels` stores its filtered result, leaving 1 entry — the claim says
a vessels query neither adds, refreshes, nor evicts any cache entry. -/
theorem c1_vessels_query_writes_cache :
    ((get_vessels 0 0 0 1 1 [] ([] : Cache (FC VesselRec))).2.2).length = 1 := rfl

/-- C1 (amended): vessels queries go through the Response Cache: a fresh
cached entry under the rounded-box key is returned as-is (the Entity Store
is not consulted and not swept), and on a cache miss the filtered result is
inserted into the Response Cache under that key. -/
theorem c1_vessels_response_cache (now : Int) (a b c d : ℚ) (vc : VCache)
    (ac : Cache (FC VesselRec)) :
    (∀ p, (get_cached_data now (get_cache_key "vessels" a b c d) ac).1 = some p →
      get_vessels now a b c d vc ac =
        (p, vc, (get_cached_data now (get_cache_key "vessels" a b c d) ac).2)) ∧
    ((get_cached_data now (get_cache_key "vessels" a b c d) ac).1 = none →
      (get_vessels now a b c d vc ac).1.features = (vessels_loop now a b c d vc).1 ∧
      dictLookup (get_vessels now a b c d vc ac).2.2 (get_cache_key "vessels" a b c d) =
        some ((get_vessels now a b c d vc ac).1, now)) := by
  constructor
  · intro p hp
    simp only [get_vessels]
    rw [hp]
  · intro hp
    simp only [get_vessels]
    rw [hp]
    exact ⟨rfl, dictLookup_set_cached_data _ _ _ _⟩

/-- C1 (witness): the amended theorem at a concrete cache-miss state — the
result is the filtered (here empty) collection and it has been cached under
the rounded-box key. -/
theorem c1_vessels_response_cache_witness :
    (get_vessels 0 0 0 1 1 [] ([] : Cache (FC VesselRec))).1.features = [] ∧
    dictLookup (get_vessels 0 0 0 1 1 [] ([] : Cache (FC VesselRec))).2.2
        (get_cache_key "vessels" 0 0 1 1) =
      some ((get_vessels 0 0 0 1 1 [] ([] : Cache (FC VesselRec))).1, 0) := by
  have h := (c1_vessels_response_cache 0 0 0 1 1 [] []).2 rfl
  exact ⟨h.1.trans rfl, h.2⟩

/-- C3: with every stored entity live, the vessels viewport query returns
exactly the entities whose position lies within the box, inclusively on all
four bounds; and an inverted box (min above max on either axis) yields the
empty result unconditionally. -/
theorem c3_viewport_filter (now : Int) (min_lat min_lon max_lat max_lon : ℚ)
    (vc : VCache) :
    ((∀ e ∈ vc, now - e.2.2 ≤ 1800) →
      (vessels_loop now min_lat min_lon max_lat max_lon vc).1 =
        (vc.filter fun e => decide (min_lat ≤ e.2.1.lat ∧ e.2.1.lat ≤ max_lat ∧
          min_lon ≤ e.2.1.lon ∧ e.2.1.lon ≤ max_lon)).map fun e => e.2.1) ∧
    ((max_lat < min_lat ∨ max_lon < min_lon) →
      (vessels_loop now min_lat min_lon max_lat max_lon vc).1 = []) := by
  constructor
  · intro hlive
    induction vc with
    | nil => rfl
    | cons e rest ih =>
      obtain ⟨k, v, t⟩ := e
      have hl : now - t ≤ 1800 := hlive (k, v, t) (List.mem_cons_self _ _)
      have hrest := ih fun e2 he2 => hlive e2 (List.mem_cons_of_mem _ he2)
      by_cases hb : min_lat ≤ v.lat ∧ v.lat ≤ max_lat ∧ min_lon ≤ v.lon ∧ v.lon ≤ max_lon
      · simp [vessels_loop, if_neg (not_lt.mpr hl), hb, hrest]
      · simp [vessels_loop, if_neg (not_lt.mpr hl), hb, hrest]
  · intro hinv
    induction vc with
    | nil => rfl
    | cons e rest ih =>
      obtain ⟨k, v, t⟩ := e
      have hb : ¬ (min_lat ≤ v.lat ∧ v.lat ≤ max_lat ∧ min_lon ≤ v.lon ∧ v.lon ≤ max_lon) := by
        rintro ⟨h1, h2, h3, h4⟩
        rcases hinv with h5 | h5
        · exact absurd (le_trans h1 h2) (not_le.mpr h5)
        · exact absurd (le_trans h3 h4) (not_le.mpr h5)
      by_cases hs : 1800 < now - t
      · simp [vessels_loop, hs, ih]
      · simp [vessels_loop, hs, hb, ih]

/-- C3 (witness): the theorem at the spec's concrete scenario — vessel 111
at (10, 20) is returned for box (5, 15, 15, 25), and an inverted box returns
nothing. -/
theorem c3_viewport_filter_witness :
    (vessels_loop 0 5 15 15 25 [("111", sampleVessel, 0)]).1 = [sampleVessel] ∧
    (vessels_loop 0 20 30 10 25 [("111", sampleVessel, 0)]).1 = [] := by
  constructor
  · rw [(c3_viewport_filter 0 5 15 15 25 [("111", sampleVessel, 0)]).1 ?_]
    · rfl
    · intro e he
      rw [List.mem_singleton] at he
      subst he
      norm_num
  · exact (c3_viewport_filter 0 20 30 10 25 [("111", sampleVessel, 0)]).2
      (Or.inl (by norm_num))

/-- C4: the staleness sweep inside the vessels query keeps exactly the
records within the 30-minute window, untouched and in order; afterwards no
surviving record is stale; and since the sweep precedes the viewport filter,
every returned feature comes from a non-stale record. -/
theorem c4_sweep_before_filter (now : Int) (min_lat min_lon max_lat max_lon : ℚ)
    (vc : VCache) :
    ((vessels_loop now min_lat min_lon max_lat max_lon vc).2.1 =
      vc.filter fun e => decide (now - e.2.2 ≤ 1800)) ∧
    (∀ e ∈ (vessels_loop now min_lat min_lon max_lat max_lon vc).2.1,
      ¬ (1800 < now - e.2.2)) ∧
    (∀ v ∈ (vessels_loop now min_lat min_lon max_lat max_lon vc).1,
      ∃ k t, (k, v, t) ∈ vc ∧ now - t ≤ 1800) := by
  refine ⟨?_, ?_, ?_⟩
  · induction vc with
    | nil => rfl
    | cons e rest ih =>
      obtain ⟨k, v, t⟩ := e
      by_cases hs : 1800 < now - t
      · simp [vessels_loop, hs, ih, List.filter, not_le.mpr hs]
      · by_cases hb : min_lat ≤ v.lat ∧ v.lat ≤ max_lat ∧ min_lon ≤ v.lon ∧ v.lon ≤ max_lon
        · simp [vessels_loop, hs, hb, ih, List.filter, not_lt.mp hs]
        · simp [vessels_loop, hs, hb, ih, List.filter, not_lt.mp hs]
  · intro e he
    induction vc with
    | nil => simp [vessels_loop] at he
    | cons e2 rest ih =>
      obtain ⟨k, v, t⟩ := e2
      by_cases hs : 1800 < now - t
      · rw [vessels_loop, if_pos hs] at he
        exact ih he
      · rw [vessels_loop, if_neg hs] at he
        by_cases hb : min_lat ≤ v.lat ∧ v.lat ≤ max_lat ∧ min_lon ≤ v.lon ∧ v.lon ≤ max_lon
        · rw [if_pos hb] at he
          rcases List.mem_cons.mp he with h1 | h1
          · subst h1; exact hs
          · exact ih h1
        · rw [if_neg hb] at he
          rcases List.mem_cons.mp he with h1 | h1
          · subst h1; exact hs
          · exact ih h1
  · intro v hv
    induction vc with
    | nil => simp [vessels_loop] at hv
    | cons e2 rest ih =>
      obtain ⟨k2, v2, t2⟩ := e2
      by_cases hs : 1800 < now - t2
      · rw [vessels_loop, if_pos hs] at hv
        obtain ⟨k, t, hmem, hfresh⟩ := ih hv
        exact ⟨k, t, List.mem_cons_of_mem _ hmem, hfresh⟩
      · rw [vessels_loop, if_neg hs] at hv
        by_cases hb : min_lat ≤ v2.lat ∧ v2.lat ≤ max_lat ∧ min_lon ≤ v2.lon ∧ v2.lon ≤ max_lon
        · rw [if_pos hb] at hv
          rcases List.mem_cons.mp hv with h1 | h1
          · subst h1
            exact ⟨k2, t2, List.mem_cons_self _ _, not_lt.mp hs⟩
          · obtain ⟨k, t, hmem, hfresh⟩ := ih h1
            exact ⟨k, t, List.mem_cons_of_mem _ hmem, hfresh⟩
        · rw [if_neg hb] at hv
          obtain ⟨k, t, hmem, hfresh⟩ := ih hv
          exact ⟨k, t, List.mem_cons_of_mem _ hmem, hfresh⟩

/-- C4 (witness): the theorem at a concrete state with one stale vessel
(observed 2000 seconds before the query): it is swept out and nothing stale
survives. -/
theorem c4_sweep_before_filter_witness :
    (vessels_loop 2000 0 0 30 30 [("111", sampleVessel, 0)]).2.1 = [] ∧
    ∀ e ∈ (vessels_loop 2000 0 0 30 30 [("111", sampleVessel, 0)]).2.1,
      ¬ (1800 < 2000 - e.2.2) := by
  constructor
  · rw [(c4_sweep_before_filter 2000 0 0 30 30 [("111", sampleVessel, 0)]).1]
    rfl
  · exact (c4_sweep_before_filter 2000 0 0 30 30 [("111", sampleVessel, 0)]).2.1

/-- C5 (counterexample): a malformed inbound message does not leave the
stream consuming subsequent messages.  With an undecodable first message
(`none`, i.e. `json.loads` raises) followed by a well-formed position
report, the connection aborts at the first message: the store stays empty
and the position report is never consumed — whereas processing the position
report alone stores one vessel.  Under the claim the malformed message
would be discarded and the report still ingested. -/
theorem c5_malformed_drops_connection :
    consume_messages 0 [none, some goodPR] [] = ([], [some goodPR]) ∧
    (consume_messages 0 [some goodPR] []).1.length = 1 := ⟨rfl, rfl⟩

/-- C5 (amended): a decodable object message whose `MessageType` is not
`"PositionReport"` is silently discarded — the store is unchanged and the
loop continues with the remaining messages.  A malformed message (invalid
JSON, or a position report missing its `Message` payload) raises inside the
loop; any message whose processing raises leaves the store unchanged but
aborts the connection, so the remaining messages of that connection are not
consumed (the ingestor reconnects after a fixed delay). -/
theorem c5_ingest_behavior (now : Int) (vc : VCache) (rest : List (Option Json)) :
    (∀ fields, ¬ isStrVal (olookup fields "MessageType") "PositionReport" →
      process_message now (some (.obj fields)) vc = .ok vc ∧
      consume_messages now (some (.obj fields) :: rest) vc =
        consume_messages now rest vc) ∧
    (process_message now none vc = .error ()) ∧
    (∀ fields, isStrVal (olookup fields "MessageType") "PositionReport" →
      olookup fields "Message" = none →
      process_message now (some (.obj fields)) vc = .error ()) ∧
    (∀ m, process_message now m vc = .error () →
      consume_messages now (m :: rest) vc = (vc, rest)) := by
  refine ⟨?_, rfl, ?_, ?_⟩
  · intro fields h
    have hp : process_message now (some (.obj fields)) vc = .ok vc := by
      simp [process_message, h]
    exact ⟨hp, by simp [consume_messages, hp]⟩
  · intro fields h1 h2
    simp [process_message, h1, h2]
  · intro m h
    simp [consume_messages, h]

/-- C5 (witness): the amended theorem at concrete messages — a
`ShipStaticData` message is skipped with the loop continuing, and an
undecodable message aborts the loop discarding the rest. -/
theorem c5_ingest_behavior_witness :
    process_message 0 (some (.obj [("MessageType", Json.str "ShipStaticData")])) [] =
      .ok [] ∧
    consume_messages 0 [some (.obj [("MessageType", Json.str "ShipStaticData")]),
      some goodPR] [] = consume_messages 0 [some goodPR] [] ∧
    consume_messages 0 [none, some goodPR] [] = ([], [some goodPR]) := by
  have h := c5_ingest_behavior 0 [] [some goodPR]
  have h1 := h.1 [("MessageType", Json.str "ShipStaticData")] (by decide)
  exact ⟨h1.1, h1.2, h.2.2.2 none h.2.1⟩

/-- C7: the AQI endpoint raises HTTP 500 exactly when the upstream
credential is falsy (unset, or set to the empty string — `not AQICN_TOKEN`);
no other error value is ever raised; and with a credential present, on a
cache miss every transient upstream failure — timeout, transport error or
`res.json()` failure (`exc`), a non-object body, a body whose `status` is
not `"ok"`, or a body whose station list fails to parse — produces the
well-formed empty feature collection, not an HTTP error. -/
theorem c7_aqi_error_modes (token : Option String) (now : Int) (a b c d : ℚ)
    (up : Upstream) (ac : Cache (FC AqiFeature)) :
    (get_aqi_data token now a b c d up ac = .error 500 ↔
      (token = none ∨ token = some "")) ∧
    (∀ e, get_aqi_data token now a b c d up ac = .error e → e = 500) ∧
    (¬ (token = none ∨ token = some "") →
      (get_cached_data now (get_cache_key "aqi" a b c d) ac).1 = none →
      (up = .timeout ∨ up = .exc ∨
        (∃ fields, up = .ok (.obj fields) ∧ ¬ isStrVal (olookup fields "status") "ok") ∨
        (∃ fields, up = .ok (.obj fields) ∧ aqi_features fields = none) ∨
        up = .ok .null ∨ (∃ v, up = .ok (.b v)) ∨ (∃ q, up = .ok (.num q)) ∨
        (∃ s, up = .ok (.str s)) ∨ (∃ l, up = .ok (.arr l))) →
      ∃ ac2, get_aqi_data token now a b c d up ac = .ok (emptyFC, ac2)) := by
  by_cases hf : token = none ∨ token = some ""
  · have herr : get_aqi_data token now a b c d up ac = .error 500 := by
      simp only [get_aqi_data, if_pos hf]
    refine ⟨by simp [herr, hf], ?_, ?_⟩
    · intro e he
      rw [herr] at he
      simpa using he.symm
    · intro hnf
      exact absurd hf hnf
  · have hok : ∃ r, get_aqi_data token now a b c d up ac = .ok r := by
      simp only [get_aqi_data, if_neg hf]
      repeat' split
      all_goals exact ⟨_, rfl⟩
    obtain ⟨r, hr⟩ := hok
    refine ⟨?_, ?_, ?_⟩
    · constructor
      · intro he
        rw [hr] at he
        simp at he
      · intro h0
        exact absurd h0 hf
    · intro e he
      rw [hr] at he
      simp at he
    · intro _ hmiss hcase
      rcases hcase with h | h | ⟨fields, hu, hst⟩ | ⟨fields, hu, hfe⟩ | h |
        ⟨v, hu⟩ | ⟨q, hu⟩ | ⟨s, hu⟩ | ⟨l, hu⟩
      · subst h
        simp only [get_aqi_data, if_neg hf]
        rw [hmiss]
        exact ⟨_, rfl⟩
      · subst h
        simp only [get_aqi_data, if_neg hf]
        rw [hmiss]
        exact ⟨_, rfl⟩
      · subst hu
        simp only [get_aqi_data, if_neg hf]
        rw [hmiss]
        dsimp only
        rw [if_pos hst]
        exact ⟨_, rfl⟩
      · subst hu
        simp only [get_aqi_data, if_neg hf]
        rw [hmiss]
        dsimp only
        by_cases hst2 : isStrVal (olookup fields "status") "ok" = true
        · rw [if_neg (not_not_intro hst2), hfe]
          exact ⟨_, rfl⟩
        · rw [if_pos hst2]
          exact ⟨_, rfl⟩
      · subst h
        simp only [get_aqi_data, if_neg hf]
        rw [hmiss]
        exact ⟨_, rfl⟩
      · subst hu
        simp only [get_aqi_data, if_neg hf]
        rw [hmiss]
        exact ⟨_, rfl⟩
      · subst hu
        simp only [get_aqi_data, if_neg hf]
        rw [hmiss]
        exact ⟨_, rfl⟩
      · subst hu
        simp only [get_aqi_data, if_neg hf]
        rw [hmiss]
        exact ⟨_, rfl⟩
      · subst hu
        simp only [get_aqi_data, if_neg hf]
        rw [hmiss]
        exact ⟨_, rfl⟩

/-- C7 (witness): the theorem at concrete states — a missing and an empty
token each give exactly error 500, and with a token present an upstream
timeout on a cache miss gives the empty feature collection. -/
theorem c7_aqi_error_modes_witness :
    get_aqi_data none 0 0 0 1 1 .timeout [] = .error 500 ∧
    get_aqi_data (some "") 0 0 0 1 1 .exc [] = .error 500 ∧
    (∃ ac2, get_aqi_data (some "t") 0 0 0 1 1 .timeout [] = .ok (emptyFC, ac2)) ∧
    get_aqi_data (some "t") 0 0 0 1 1 .timeout [] ≠ .error 500 := by
  have h := c7_aqi_error_modes (some "t") 0 0 0 1 1 .timeout []
  refine ⟨(c7_aqi_error_modes none 0 0 0 1 1 .timeout []).1.mpr (Or.inl rfl),
          (c7_aqi_error_modes (some "") 0 0 0 1 1 .exc []).1.mpr (Or.inr rfl),
          h.2.2 (by simp) rfl (Or.inl rfl), ?_⟩
  intro he
  rcases h.1.mp he with h1 | h1 <;> simp at h1

/-- C8 (counterexample): two boxes whose four coordinates all round to the
same one-decimal-degree values can still produce different keys.  The
coordinates `-0.01` and `0.01` both round to the value `0` at one decimal,
but Python formats them as `"-0.0"` and `"0.0"` respectively, so the
pre-hash strings — and hence the MD5 keys — differ. -/
theorem c8_equal_rounded_box_distinct_keys :
    spec_roundTenth (mkRat (-1) 100) = spec_roundTenth (mkRat 1 100) ∧
    spec_roundTenth (mkRat (-1) 100) = 0 ∧
    fmt1 (mkRat (-1) 100) = "-0.0" ∧ fmt1 (mkRat 1 100) = "0.0" ∧
    get_cache_key "aqi" (mkRat (-1) 100) 0 1 1 ≠ get_cache_key "aqi" (mkRat 1 100) 0 1 1 := by
  refine ⟨by decide, by decide, by decide, by decide, by decide⟩

/-- C8 (amended): boxes whose four coordinates format to the same
one-decimal strings (value rounding plus, for values rounding to zero, the
sign — Python renders `"-0.0"` for small negatives) collapse to the same
key for the same source kind; and distinct source kinds always produce
distinct pre-hash key strings for identical boxes (so their MD5 keys
coincide only in the event of an MD5 collision). -/
theorem c8_key_normalization (kind kind2 : String) (a b c d a2 b2 c2 d2 : ℚ) :
    ((fmt1 a = fmt1 a2 ∧ fmt1 b = fmt1 b2 ∧ fmt1 c = fmt1 c2 ∧ fmt1 d = fmt1 d2) →
      get_cache_key kind a b c d = get_cache_key kind a2 b2 c2 d2) ∧
    (kind ≠ kind2 → bbox_str kind a b c d ≠ bbox_str kind2 a b c d) := by
  constructor
  · rintro ⟨h1, h2, h3, h4⟩
    unfold get_cache_key bbox_str
    rw [h1, h2, h3, h4]
  · intro hne h
    apply hne
    apply String.ext
    have hd := congrArg String.data h
    unfold bbox_str at hd
    simp only [String.data_append, List.append_assoc] at hd
    exact List.append_cancel_right hd

/-- C8 (witness): the amended theorem at concrete inputs — jittered
coordinates `0.14` and `0.06` both format to `"0.1"` and share a key, while
the `"aqi"` and `"waves"` kinds get distinct key strings on the same box. -/
theorem c8_key_normalization_witness :
    get_cache_key "aqi" (mkRat 14 100) 0 1 1 = get_cache_key "aqi" (mkRat 6 100) 0 1 1 ∧
    bbox_str "aqi" 0 0 1 1 ≠ bbox_str "waves" 0 0 1 1 :=
  ⟨(c8_key_normalization "aqi" "aqi" (mkRat 14 100) 0 1 1 (mkRat 6 100) 0 1 1).1
      ⟨by decide, rfl, rfl, rfl⟩,
   (c8_key_normalization "aqi" "waves" 0 0 1 1 0 0 1 1).2 (by decide)⟩

/-- Every hexadecimal digit character produced by `hexChar` is one of the
sixteen characters `0-9a-f`. -/
theorem hexChar_mem (n : Nat) : hexChar n ∈ hexChars := by
  have hlen : hexChars.length = 16 := rfl
  have h : n % 16 < hexChars.length := by
    rw [hlen]
    exact Nat.mod_lt _ (by norm_num)
  rw [hexChar, List.getD_eq_getElem _ _ h]
  exact List.getElem_mem h

/-- Every character of an MD5 hex digest is a lowercase hexadecimal digit. -/
theorem md5Hex_chars (s : String) : ∀ c ∈ (md5Hex s).data, c ∈ hexChars := by
  intro c hc
  have h2 : c ∈ ((md5Bytes (strBytes s)).map fun b =>
      [hexChar (b / 16), hexChar (b % 16)]).flatten := hc
  rw [List.mem_flatten] at h2
  obtain ⟨l, hl, hcl⟩ := h2
  rw [List.mem_map] at hl
  obtain ⟨b, _, hb⟩ := hl
  subst hb
  rw [List.mem_cons, List.mem_singleton] at hcl
  rcases hcl with h1 | h1
  · subst h1; exact hexChar_mem _
  · subst h1; exact hexChar_mem _

/-- An initial-run match means every character of the needle occurs in the
haystack. -/
theorem leadsB_subset {n h : List Char} (hp : leadsB n h = true) :
    ∀ c ∈ n, c ∈ h := by
  induction n generalizing h with
  | nil => intro c hc; simp at hc
  | cons a n2 ih =>
    cases h with
    | nil => simp [leadsB] at hp
    | cons b h2 =>
      rw [leadsB, Bool.and_eq_true] at hp
      obtain ⟨hab, hrest⟩ := hp
      intro c hc
      rcases List.mem_cons.mp hc with h1 | h1
      · subst h1
        rw [List.mem_cons]
        left
        exact (decide_eq_true_eq.mp hab)
      · exact List.mem_cons_of_mem _ (ih hrest c h1)

/-- A substring match means every character of the needle occurs in the
haystack. -/
theorem hasSubB_subset {n h : List Char} (hp : hasSubB n h = true) :
    ∀ c ∈ n, c ∈ h := by
  induction h with
  | nil =>
    rw [hasSubB, List.isEmpty_iff] at hp
    subst hp
    intro c hc
    simp at hc
  | cons b h2 ih =>
    rw [hasSubB, Bool.or_eq_true] at hp
    rcases hp with h1 | h1
    · exact leadsB_subset h1
    · intro c hc
      exact List.mem_cons_of_mem _ (ih h1 c hc)

/-- C9: for any response-cache state whose keys are MD5 hex digests — which
is every state the program can reach, keys being produced by
`get_cache_key` — the health endpoint reports `aqi_stations = 0` and
`wave_points = 0`: the substring tests for `'aqi'`/`'AQI'` and
`'wave'`/`'WAVE'` cannot match a key made of the characters `0-9a-f`. -/
theorem c9_health_counts_zero {F : Type} (now : Int) (ac : Cache (FC F))
    (h : ∀ e ∈ ac, ∃ s, e.1 = md5Hex s) : health_counts now ac = (0, 0) := by
  induction ac with
  | nil => rfl
  | cons e rest ih =>
    obtain ⟨k, dd, t⟩ := e
    obtain ⟨s, hs⟩ := h (k, dd, t) (List.mem_cons_self _ _)
    have hih := ih fun e2 he2 => h e2 (List.mem_cons_of_mem _ he2)
    have hk2 : k = md5Hex s := hs
    have hkey : ∀ c ∈ k.toList, c ∈ hexChars := by
      intro c hc
      rw [hk2] at hc
      exact md5Hex_chars s c hc
    have haqi : ¬ (hasSubB "aqi".toList k.toList = true) := fun hq =>
      absurd (hkey 'q' (hasSubB_subset hq 'q' (by decide))) (by decide)
    have hAQI : ¬ (hasSubB "AQI".toList k.toList = true) := fun hq =>
      absurd (hkey 'A' (hasSubB_subset hq 'A' (by decide))) (by decide)
    have hwave : ¬ (hasSubB "wave".toList k.toList = true) := fun hq =>
      absurd (hkey 'w' (hasSubB_subset hq 'w' (by decide))) (by decide)
    have hWAVE : ¬ (hasSubB "WAVE".toList k.toList = true) := fun hq =>
      absurd (hkey 'W' (hasSubB_subset hq 'W' (by decide))) (by decide)
    have hA : ¬ ((hasSubB "aqi".toList k.toList ||
        hasSubB "AQI".toList k.toList) = true) := by
      intro hq
      rcases Bool.or_eq_true _ _ |>.mp hq with h1 | h1
      · exact haqi h1
      · exact hAQI h1
    have hW : ¬ ((hasSubB "wave".toList k.toList ||
        hasSubB "WAVE".toList k.toList) = true) := by
      intro hq
      rcases Bool.or_eq_true _ _ |>.mp hq with h1 | h1
      · exact hwave h1
      · exact hWAVE h1
    simp only [health_counts]
    rw [hih]
    by_cases hfresh : now - t < CACHE_TTL
    · rw [if_pos hfresh, if_neg hA, if_neg hW]
    · rw [if_neg hfresh]

/-- C9 (witness): the theorem at a concrete single-entry cache whose key is
the program's own rounded-box key for the vessels source: the entry is
fresh and holds one feature, yet both counters stay zero. -/
theorem c9_health_counts_zero_witness :
    health_counts 0 [(get_cache_key "vessels" 0 0 1 1, (⟨[()]⟩ : FC Unit), 0)] =
      (0, 0) := by
  apply c9_health_counts_zero
  intro e he
  rw [List.mem_singleton] at he
  subst he
  exact ⟨bbox_str "vessels" 0 0 1 1, rfl⟩

/-- Concatenating `n` copies of a list multiplies its length by `n`. -/
theorem repList_length (n : Nat) (l : List ℚ) :
    (repList n l).length = n * l.length := by
  induction n with
  | zero => simp [repList]
  | succ m ih =>
    simp [repList, ih, Nat.succ_mul]
    omega

/-- Repeating each element `m` times multiplies the length by `m`. -/
theorem expand_length (l : List ℚ) (m : Nat) :
    (expand l m).length = l.length * m := by
  induction l with
  | nil => simp [expand]
  | cons x rest ih =>
    simp [expand, ih, Nat.succ_mul]
    omega

/-- An `arange` over an empty or inverted interval is empty. -/
theorem arange_eq_nil {lo hi : ℚ} (h : hi ≤ lo) : arange lo hi 3 = [] := by
  unfold arange
  have h1 : (hi - lo) / 3 ≤ 0 :=
    div_nonpos_iff.mpr (Or.inr ⟨by linarith, by norm_num⟩)
  have h2 : (⌈(hi - lo) / 3⌉ : Int) ≤ 0 := Int.ceil_le.mpr (by exact_mod_cast h1)
  rw [Int.toNat_of_nonpos h2]
  rfl

/-- C10: the wave grid always has at least one sample point (latitude and
longitude lists of equal positive length); a fully degenerate or inverted
box falls back to the single point `(min_lat, min_lon)`; and the point list
actually queried by the waves endpoint has between 1 and 50 entries. -/
theorem c10_wave_grid (a b c d : ℚ) :
    (generate_grid a b c d 3).1.length = (generate_grid a b c d 3).2.length ∧
    1 ≤ (generate_grid a b c d 3).1.length ∧
    (c ≤ a → d ≤ b → generate_grid a b c d 3 = ([a], [b])) ∧
    1 ≤ (waves_points a b c d).1.length ∧
    (waves_points a b c d).1.length ≤ 50 := by
  have hgg : generate_grid a b c d 3 =
      (repList (if arange b d 3 = [] then [b] else arange b d 3).length
        (if arange a c 3 = [] then [a] else arange a c 3),
       expand (if arange b d 3 = [] then [b] else arange b d 3)
        (if arange a c 3 = [] then [a] else arange a c 3).length) := rfl
  have hpos : ∀ (l0 : List ℚ) (x : ℚ), 0 < (if l0 = [] then [x] else l0).length := by
    intro l0 x
    split
    · simp
    · next hne => exact List.length_pos.mpr hne
  have hL := hpos (arange a c 3) a
  have hM := hpos (arange b d 3) b
  have hlen1 : (generate_grid a b c d 3).1.length =
      (if arange b d 3 = [] then [b] else arange b d 3).length *
      (if arange a c 3 = [] then [a] else arange a c 3).length := by
    rw [hgg]
    exact repList_length _ _
  have hlen2 : (generate_grid a b c d 3).2.length =
      (if arange b d 3 = [] then [b] else arange b d 3).length *
      (if arange a c 3 = [] then [a] else arange a c 3).length := by
    rw [hgg]
    exact expand_length _ _
  have hone : 1 ≤ (generate_grid a b c d 3).1.length := by
    rw [hlen1]
    exact Nat.mul_pos hM hL
  refine ⟨by rw [hlen1, hlen2], hone, ?_, ?_, ?_⟩
  · intro hca hdb
    have h1 : arange a c 3 = [] := arange_eq_nil hca
    have h2 : arange b d 3 = [] := arange_eq_nil hdb
    rw [hgg, if_pos h1, if_pos h2]
    rfl
  · simp only [waves_points, waves_sample]
    by_cases h50 : 50 < (generate_grid a b c d 3).1.length
    · rw [if_pos h50]
      simp
    · rw [if_neg h50]
      exact hone
  · simp only [waves_points, waves_sample]
    by_cases h50 : 50 < (generate_grid a b c d 3).1.length
    · rw [if_pos h50]
      simp
    · rw [if_neg h50]
      exact not_lt.mp h50

/-- C10 (witness): the theorem at the fully degenerate box `(0, 0, 0, 0)` —
the grid is the single fallback point and the queried point count is within
bounds. -/
theorem c10_wave_grid_witness :
    generate_grid 0 0 0 0 3 = ([0], [0]) ∧
    1 ≤ (waves_points 0 0 0 0).1.length ∧
    (waves_points 0 0 0 0).1.length ≤ 50 :=
  ⟨(c10_wave_grid 0 0 0 0).2.2.1 (le_refl 0) (le_refl 0),
   (c10_wave_grid 0 0 0 0).2.2.2.1,
   (c10_wave_grid 0 0 0 0).2.2.2.2⟩
